import Mathlib

/-!
Verification of the KYLO audit engine (`src/kylo/auditor.py`).

The Python module is shallowly embedded: the parsed syntax tree is an
inductive type carrying the node fields the rules inspect (constructor kind,
name / attribute strings, first call argument shape, line numbers), the
visitor is a structural traversal accumulating findings in document order,
and the stateful scan orchestrator is modelled with explicit state passing.
Filesystem reads and the external parser are boundary inputs: a file is
given to `auditFile` as the outcome of `open` + `ast.parse` (either a
failure message or source text plus tree).  The deep-analysis hook
(`gemini_analyzer.analyze_code_security`, not part of the analyzed sources)
is modelled from the spec as a boundary parameter: it is disabled, raises,
or returns a sequence of records, each either Issue-shaped or malformed
(a malformed record makes the tagging loop raise, as any non-mapping value
does in the Python loop).
-/

/-- One finding, as built by `auditor.py` (a dict with optional keys). -/
structure Issue where
  file : String
  line : Option Nat
  severity : String
  message : String
  suggestion : Option String
  details : Option (List String)
  source : Option String
deriving DecidableEq, Repr

/-- Binary operator of an `ast.BinOp` node.  `visit_Call` never inspects it. -/
inductive PyOp where
  | add
  | sub
  | mult
  | mod
  | other
deriving DecidableEq, Repr

/-- Embedded Python expression nodes: the constructors and fields that
`Visitor.visit_Call` inspects (`ast.Name`, `ast.Attribute`, `ast.JoinedStr`,
string constants alias `ast.Str`, `ast.BinOp`, `ast.Call`), plus a generic
node with ordered children standing for every other syntax form. -/
inductive Expr where
  | name (id : String) (lineno : Nat)
  | attrGet (value : Expr) (attr : String) (lineno : Nat)
  | strLit (s : String) (lineno : Nat)
  | constOther (lineno : Nat)
  | joinedStr (values : List Expr) (lineno : Nat)
  | binOp (left : Expr) (op : PyOp) (right : Expr) (lineno : Nat)
  | call (func : Expr) (args : List Expr) (lineno : Nat)
  | node (children : List Expr) (lineno : Nat)

/-- A parsed module: its body statements in document order. -/
structure PyModule where
  body : List Expr

/-- Substring test on character lists, the meaning of Python `pat in s`. -/
def charPrefixOf : List Char → List Char → Bool
  | [], _ => true
  | _ :: _, [] => false
  | a :: as, b :: bs => a == b && charPrefixOf as bs

def charInfixOf : List Char → List Char → Bool
  | pat, [] => pat.isEmpty
  | pat, b :: bs => charPrefixOf pat (b :: bs) || charInfixOf pat bs

def strContains (s pat : String) : Bool :=
  charInfixOf pat.toList s.toList

/-- Python `str.lower()` on the character sequence (ASCII case mapping). -/
def strLower (s : String) : String :=
  String.mk (s.toList.map Char.toLower)

/-- Python `str.startswith`. -/
def strStartsWith (s pre : String) : Bool :=
  charPrefixOf pre.toList s.toList

/-- Python `str.endswith`. -/
def strEndsWith (s suf : String) : Bool :=
  charPrefixOf suf.toList.reverse s.toList.reverse

/-- `func_name` resolution in `visit_Call`: the attribute name of a
qualified call, else a bare name, else nothing. -/
def funcName : Expr → Option String
  | .attrGet _ a _ => some a
  | .name id _ => some id
  | _ => none

/-- `isinstance(x, ast.Str)`: a constant node holding a plain string. -/
def isStrNode : Expr → Bool
  | .strLit _ _ => true
  | _ => false

def dynExecIssue (path id : String) (line : Nat) : Issue :=
  { file := path, line := some line, severity := "high",
    message := "Use of " ++ id ++ "() can be dangerous.",
    suggestion := some "Avoid eval/exec; use safe parsers or restricted execution.",
    details := none, source := none }

def fstringIssue (path : String) (line : Nat) : Issue :=
  { file := path, line := some line, severity := "critical",
    message := "SQL query constructed with f-string — possible SQL injection.",
    suggestion := some "Use parameterized queries (e.g., placeholders + parameters) instead of f-strings.",
    details := none, source := none }

def concatIssue (path : String) (line : Nat) : Issue :=
  { file := path, line := some line, severity := "high",
    message := "SQL query built via string concatenation — possible SQL injection.",
    suggestion := some "Use parameterized queries instead.",
    details := none, source := none }

/-- The eval/exec detection of `visit_Call`: fires on a bare-name call to
`eval` or `exec`, at the line of the call node. -/
def dynCheck (path : String) (f : Expr) (line : Nat) : List Issue :=
  match f with
  | .name id _ => if id == "eval" || id == "exec" then [dynExecIssue path id line] else []
  | _ => []

/-- `func_name.lower() in ('execute', 'executemany')`. -/
def isExecName (f : Expr) : Bool :=
  match funcName f with
  | some n => strLower n == "execute" || strLower n == "executemany"
  | none => false

/-- The two query-construction checks of `visit_Call` on the first call
argument: an f-string argument and a binary operation with a string-literal
operand.  Both record the line of the argument node (`first.lineno`). -/
def sqlFirstIssues (path : String) (first : Expr) : List Issue :=
  (match first with
   | .joinedStr _ al => [fstringIssue path al]
   | _ => []) ++
  (match first with
   | .binOp l _ r al => if isStrNode l || isStrNode r then [concatIssue path al] else []
   | _ => [])

/-- The query-construction detection of `visit_Call`: name match, then a
non-empty argument list, then the checks on `node.args[0]`. -/
def sqlCheck (path : String) (f : Expr) (args : List Expr) : List Issue :=
  if isExecName f then
    match args with
    | [] => []
    | first :: _ => sqlFirstIssues path first
  else []

/-- Everything `visit_Call` appends at one call node, in rule order. -/
def callIssues (path : String) (f : Expr) (args : List Expr) (line : Nat) : List Issue :=
  dynCheck path f line ++ sqlCheck path f args

/- The `ast.NodeVisitor` traversal, abstracted over the per-call rule:
at a call node the rule fires first, then `generic_visit` recurses into the
children in field order, accumulating in document order. -/
mutual
def visitExprWith (rule : Expr → List Expr → Nat → List Issue) : Expr → List Issue
  | .call f args line => rule f args line ++ visitExprWith rule f ++ visitListWith rule args
  | .attrGet v _ _ => visitExprWith rule v
  | .binOp l _ r _ => visitExprWith rule l ++ visitExprWith rule r
  | .joinedStr vs _ => visitListWith rule vs
  | .node cs _ => visitListWith rule cs
  | .name _ _ => []
  | .strLit _ _ => []
  | .constOther _ => []

def visitListWith (rule : Expr → List Expr → Nat → List Issue) : List Expr → List Issue
  | [] => []
  | e :: es => visitExprWith rule e ++ visitListWith rule es
end

/-- `Visitor().visit(tree)` over a parsed module. -/
def visitModule (path : String) (m : PyModule) : List Issue :=
  visitListWith (callIssues path) m.body

def alignmentIssue (path : String) (missing : List String) : Issue :=
  { file := path, line := none, severity := "medium",
    message := "Potential misalignment with README goals.",
    suggestion := none, details := some (missing.take 5), source := none }

/-- The alignment check of `audit_file`: skipped for a falsy keyword list,
otherwise one medium Issue when any keyword misses the lowercased source. -/
def alignmentIssues (path src : String) (readmeKeywords : List String) : List Issue :=
  if readmeKeywords.isEmpty then []
  else
    let missing := readmeKeywords.filter (fun k => !(strContains (strLower src) k))
    if missing.isEmpty then [] else [alignmentIssue path missing]

/-- Modelled from the spec: one Issue-shaped record returned by the
Deep-Analysis Provider (`analyze_code_security` is not among the analyzed
sources); the provider reports a finding with an optional file of its own. -/
structure HookRecord where
  file : Option String
  line : Option Nat
  severity : String
  message : String
  suggestion : Option String
deriving DecidableEq, Repr

/-- The tagging of one hook record: `gi['source'] = 'gemini'` and
`gi.setdefault('file', path)`. -/
def tagRecord (path : String) (r : HookRecord) : Issue :=
  { file := r.file.getD path, line := r.line, severity := r.severity,
    message := r.message, suggestion := r.suggestion,
    details := none, source := some "gemini" }

/-- Modelled from the spec: the observable behaviours of the Deep-Analysis
Hook boundary inside `audit_file` — not configured (or import failure),
an invocation that raises, or a returned record sequence in which a
malformed (non-mapping) element is `none`. -/
inductive HookResult where
  | disabled
  | raises
  | returns (records : List (Option HookRecord))

/-- The tagging loop over returned records: a malformed record raises,
so tagging stops there and the records already appended stay. -/
def mergeHookRecords (path : String) : List (Option HookRecord) → List Issue
  | [] => []
  | none :: _ => []
  | some r :: rest => tagRecord path r :: mergeHookRecords path rest

/-- The `try`/`except Exception: pass` block around the hook call. -/
def applyHook (path : String) (merged : List Issue) : HookResult → List Issue
  | .disabled => merged
  | .raises => merged
  | .returns rs => merged ++ mergeHookRecords path rs

/-- Outcome of `open(path).read()` + `ast.parse(src)` for one file. -/
inductive LoadResult where
  | failure (msg : String)
  | success (src : String) (tree : PyModule)

def parseFailureIssue (path msg : String) : Issue :=
  { file := path, line := none, severity := "error",
    message := "Failed to parse: " ++ msg,
    suggestion := none, details := none, source := none }

/-- `audit_file`: a read/parse failure returns the single error Issue at
once; otherwise rule issues, then the alignment issue, then whatever the
hook block adds. -/
def auditFile (path : String) (load : LoadResult) (readmeKeywords : List String)
    (hook : HookResult) : List Issue :=
  match load with
  | .failure msg => [parseFailureIssue path msg]
  | .success src tree =>
      let issues := visitModule path tree
      let merged := issues ++ alignmentIssues path src readmeKeywords
      applyHook path merged hook

/-- Python `w in xs` membership on a collection of strings. -/
def strListHas : List String → String → Bool
  | [], _ => false
  | a :: as, w => w == a || strListHas as w

/-- The fixed stopword set of `auditor.py`. -/
def STOPWORDS : List String :=
  ["the", "and", "or", "to", "a", "of", "in", "for", "is", "with", "on", "that", "this"]

/-- `re.findall(r"[A-Za-z]+", text)`: maximal runs of ASCII letters. -/
def alphaRunsAux : List Char → List Char → List String
  | [], acc => if acc.isEmpty then [] else [String.mk acc.reverse]
  | c :: cs, acc =>
      if c.isAlpha then alphaRunsAux cs (c :: acc)
      else if acc.isEmpty then alphaRunsAux cs []
      else String.mk acc.reverse :: alphaRunsAux cs []

def alphaRuns (s : String) : List String :=
  alphaRunsAux s.toList []

/-- The dedup-and-cap loop of `_extract_readme_keywords`: skip seen words,
append new ones, stop once 20 are collected. -/
def keywordLoop : List String → List String → List String → List String
  | [], _, out => out
  | w :: ws, seen, out =>
      if strListHas seen w then keywordLoop ws seen out
      else
        let out2 := out ++ [w]
        if 20 ≤ out2.length then out2 else keywordLoop ws (w :: seen) out2

/-- `_extract_readme_keywords`: `none` stands for a missing README file. -/
def extractReadmeKeywords : Option String → List String
  | none => []
  | some text =>
      let words := alphaRuns (strLower text)
      let keywords := words.filter (fun w => !(strListHas STOPWORDS w))
      keywordLoop keywords [] []

/-- Per-file entry of the persisted state. -/
structure ScanRecord where
  last_scanned : Nat
  issues : List Issue
deriving DecidableEq, Repr

/-- The persisted project state: the files map (a Python dict, modelled
pointwise) and the generation timestamp. -/
structure ProjectState where
  files : String → Option ScanRecord
  generated : Nat

structure ScanEntry where
  file : String
  issues_count : Nat
deriving DecidableEq, Repr

structure Summary where
  files : Nat
  issues : Nat
deriving DecidableEq, Repr

structure Report where
  scanned : List ScanEntry
  summary : Summary
deriving DecidableEq, Repr

/-- One regular file of the scanned tree together with what reading and
parsing it yields. -/
structure FSFile where
  path : String
  load : LoadResult

/-- The filesystem visible to `audit_path`: the regular files, listed in
the order `os.walk` reaches them. -/
structure FS where
  files : List FSFile

def isFile (fs : FS) (p : String) : Bool :=
  fs.files.any (fun f => f.path == p)

/-- `os.walk(path)` with the `.py` filter: every regular file strictly
below `path`; a missing path or a non-directory path yields nothing, since
`os.walk` swallows the scandir error (`onerror` is `None`). -/
def walkTargets (fs : FS) (root : String) : List String :=
  (fs.files.map (fun f => f.path)).filter
    (fun p => strStartsWith p (root ++ "/") && strEndsWith p ".py")

/-- Target enumeration of `audit_path`: a single target when the path is a
regular `.py` file, otherwise the recursive walk. -/
def enumerateTargets (fs : FS) (p : String) : List String :=
  if isFile fs p && strEndsWith p ".py" then [p] else walkTargets fs p

def loadOf (fs : FS) (p : String) : LoadResult :=
  match fs.files.find? (fun f => f.path == p) with
  | some f => f.load
  | none => LoadResult.failure "file not found"

def updateFiles (m : String → Option ScanRecord) (k : String) (v : ScanRecord) :
    String → Option ScanRecord :=
  fun q => if q = k then some v else m q

def initialState (now : Nat) : ProjectState :=
  { files := fun _ => none, generated := now }

/-- `audit_path`: extract README keywords, load or default the state,
enumerate targets, audit each target while overwriting its ScanRecord and
accumulating the report, stamp `generated`, and return the report beside
the state that `save_json` persists.  `loaded` is what `load_json` gave
(`none` for a missing or unreadable state file); `now` is the clock. -/
def auditPath (fs : FS) (readme : Option String) (hook : HookResult) (now : Nat)
    (loaded : Option ProjectState) (p : String) : ProjectState × Report :=
  let keywords := extractReadmeKeywords readme
  let state := loaded.getD (initialState now)
  let targets := enumerateTargets fs p
  let results := targets.map (fun t => (t, auditFile t (loadOf fs t) keywords hook))
  let files := results.foldl (fun m tr => updateFiles m tr.1 ⟨now, tr.2⟩) state.files
  let report : Report :=
    { scanned := results.map (fun tr => { file := tr.1, issues_count := tr.2.length }),
      summary := { files := targets.length,
                   issues := (results.map (fun tr => tr.2.length)).sum } }
  ({ files := files, generated := now }, report)

/-- Last overwrite among the per-target results: the dict value a key holds
after the scan loop ran. -/
def findIssues : List (String × List Issue) → String → Option (List Issue)
  | [], _ => none
  | (k, v) :: L, q =>
      match findIssues L q with
      | some r => some r
      | none => if q = k then some v else none

lemma foldl_update_apply (now : Nat) (L : List (String × List Issue))
    (m : String → Option ScanRecord) (q : String) :
    (L.foldl (fun acc tr => updateFiles acc tr.1 ⟨now, tr.2⟩) m) q =
      match findIssues L q with
      | some iss => some ⟨now, iss⟩
      | none => m q := by
  induction L generalizing m with
  | nil => rfl
  | cons tr L ih =>
      obtain ⟨k, v⟩ := tr
      simp only [List.foldl_cons, findIssues]
      rw [ih]
      cases h : findIssues L q with
      | some r => simp
      | none => by_cases hq : q = k <;> simp [updateFiles, hq]

lemma auditPath_files_apply (fs : FS) (readme : Option String) (hook : HookResult)
    (now : Nat) (loaded : Option ProjectState) (p q : String) :
    (auditPath fs readme hook now loaded p).1.files q =
      match findIssues ((enumerateTargets fs p).map
          (fun t => (t, auditFile t (loadOf fs t) (extractReadmeKeywords readme) hook))) q with
      | some iss => some ⟨now, iss⟩
      | none => (loaded.getD (initialState now)).files q :=
  foldl_update_apply now _ _ q

lemma enumerateTargets_eq_nil (fs : FS) (p : String)
    (hcond : (isFile fs p && strEndsWith p ".py") = false)
    (hnounder : ∀ f ∈ fs.files, strStartsWith f.path (p ++ "/") = false) :
    enumerateTargets fs p = [] := by
  unfold enumerateTargets walkTargets
  rw [hcond, if_neg (by decide : ¬ (false = true))]
  rw [List.filter_eq_nil_iff]
  intro a ha
  simp only [List.mem_map] at ha
  obtain ⟨f, hf, rfl⟩ := ha
  simp [hnounder f hf]

lemma auditPath_no_targets (fs : FS) (readme : Option String) (hook : HookResult)
    (now : Nat) (loaded : Option ProjectState) (p : String)
    (h : enumerateTargets fs p = []) :
    auditPath fs readme hook now loaded p =
      ({ files := (loaded.getD (initialState now)).files, generated := now },
       { scanned := [], summary := { files := 0, issues := 0 } }) := by
  simp only [auditPath, h, List.map_nil, List.foldl_nil, List.length_nil, List.sum_nil]

/-- C5: for a file whose read or structural parse fails, `audit_file`
returns exactly the one error-severity Issue carrying the parser message —
no rule, alignment or hook Issue is produced, whatever the keyword set or
hook behaviour, and no exception escapes (the function is total). -/
theorem c5_parse_failure_single_error (path msg : String) (kws : List String)
    (hook : HookResult) :
    auditFile path (LoadResult.failure msg) kws hook = [parseFailureIssue path msg]
    ∧ (parseFailureIssue path msg).severity = "error"
    ∧ (parseFailureIssue path msg).message = "Failed to parse: " ++ msg :=
  ⟨rfl, rfl, rfl⟩

/-- C3 (amended): when the Deep-Analysis Hook invocation itself raises, the
`except Exception: pass` block leaves the merged local sequence — rule
issues then alignment issues — exactly as it was, and `audit_file` returns
it (no exception escapes the boundary). -/
theorem c3_hook_raise_returns_local (path src : String) (m : PyModule)
    (kws : List String) :
    auditFile path (LoadResult.success src m) kws HookResult.raises
      = visitModule path m ++ alignmentIssues path src kws := rfl

/-- C3 counterexample: a hook response whose second record is malformed
makes the tagging loop raise after the first record was already appended,
so `audit_file` does not return the unchanged local sequence: the claim
fails for a hook failure that happens after a partial merge. -/
theorem c3_counterexample :
    auditFile "a.py" (LoadResult.success "" ⟨[]⟩) []
        (HookResult.returns
          [some { file := none, line := none, severity := "info",
                  message := "model note", suggestion := none }, none])
      ≠ visitModule "a.py" ⟨[]⟩ ++ alignmentIssues "a.py" "" [] := by
  decide

/-- C9: re-running a scan on an unchanged filesystem, README and hook state
reproduces the same Report, leaves every file entry with the identical
Issue sequence, and changes only the timestamps (`generated` becomes the
second clock value; `last_scanned` likewise, as the record projection
shows). -/
theorem c9_rescan_idempotent (fs : FS) (readme : Option String) (hook : HookResult)
    (t1 t2 : Nat) (s0 : Option ProjectState) (p : String) :
    (auditPath fs readme hook t2 (some (auditPath fs readme hook t1 s0 p).1) p).2
        = (auditPath fs readme hook t1 s0 p).2
    ∧ (∀ q, Option.map ScanRecord.issues
          ((auditPath fs readme hook t2 (some (auditPath fs readme hook t1 s0 p).1) p).1.files q)
        = Option.map ScanRecord.issues ((auditPath fs readme hook t1 s0 p).1.files q))
    ∧ (auditPath fs readme hook t2 (some (auditPath fs readme hook t1 s0 p).1) p).1.generated
        = t2 := by
  refine ⟨rfl, ?_, rfl⟩
  intro q
  rw [auditPath_files_apply, auditPath_files_apply]
  simp only [Option.getD_some]
  cases h : findIssues ((enumerateTargets fs p).map
      (fun t => (t, auditFile t (loadOf fs t) (extractReadmeKeywords readme) hook))) q with
  | some iss => simp [h]
  | none =>
      simp only [h]
      rw [auditPath_files_apply]
      simp [h]

/-- C1 counterexample: for a target path that does not exist (the empty
filesystem), `audit_path` surfaces no scan-level failure — `os.walk`
swallows the enumeration error — and an ordinary Report with zero files
and zero issues is produced, with state still stamped and persisted. -/
theorem c1_counterexample :
    (auditPath ⟨[]⟩ none HookResult.disabled 5 none "/missing").2
        = { scanned := [], summary := { files := 0, issues := 0 } }
    ∧ (auditPath ⟨[]⟩ none HookResult.disabled 5 none "/missing").1.generated = 5 :=
  ⟨rfl, rfl⟩

/-- C1 (amended): for a target path at which no file exists and below which
no file exists, `audit_path` raises nothing and returns an empty Report
(zero files, zero issues); the state is still persisted with `generated`
updated and the files map untouched. -/
theorem c1_missing_target_empty_report (fs : FS) (readme : Option String)
    (hook : HookResult) (now : Nat) (loaded : Option ProjectState) (p : String)
    (hnofile : isFile fs p = false)
    (hnounder : ∀ f ∈ fs.files, strStartsWith f.path (p ++ "/") = false) :
    (auditPath fs readme hook now loaded p).2
        = { scanned := [], summary := { files := 0, issues := 0 } }
    ∧ (auditPath fs readme hook now loaded p).1.files
        = (loaded.getD (initialState now)).files
    ∧ (auditPath fs readme hook now loaded p).1.generated = now := by
  have h := auditPath_no_targets fs readme hook now loaded p
    (enumerateTargets_eq_nil fs p (by rw [hnofile]; rfl) hnounder)
  rw [h]
  exact ⟨rfl, rfl, rfl⟩

theorem c1_missing_target_empty_report_witness :
    (auditPath ⟨[]⟩ none HookResult.disabled 7 none "/missing").2
      = { scanned := [], summary := { files := 0, issues := 0 } } :=
  (c1_missing_target_empty_report ⟨[]⟩ none HookResult.disabled 7 none "/missing"
    (by decide) (by intro f hf; cases hf)).1

/-- C10: when the target path is an existing regular file whose name does
not end in `.py` (so nothing lies below it), enumeration yields zero
targets and `audit_path` returns a Report with `files = 0` and
`issues = 0` without raising, while the persisted state keeps its files
map unchanged and gets a fresh `generated` timestamp. -/
theorem c10_non_py_file_target (fs : FS) (readme : Option String)
    (hook : HookResult) (now : Nat) (s0 : ProjectState) (p : String)
    (_hfile : isFile fs p = true)
    (hnotpy : strEndsWith p ".py" = false)
    (hnounder : ∀ f ∈ fs.files, strStartsWith f.path (p ++ "/") = false) :
    (auditPath fs readme hook now (some s0) p).2
        = { scanned := [], summary := { files := 0, issues := 0 } }
    ∧ (auditPath fs readme hook now (some s0) p).1.files = s0.files
    ∧ (auditPath fs readme hook now (some s0) p).1.generated = now := by
  have h := auditPath_no_targets fs readme hook now (some s0) p
    (enumerateTargets_eq_nil fs p (by rw [hnotpy, Bool.and_false]) hnounder)
  rw [h]
  exact ⟨rfl, rfl, rfl⟩

theorem c10_non_py_file_target_witness :
    (auditPath ⟨[⟨"/a/x.txt", LoadResult.failure "m"⟩]⟩ none HookResult.disabled 3
        (some (initialState 0)) "/a/x.txt").2
      = { scanned := [], summary := { files := 0, issues := 0 } } :=
  (c10_non_py_file_target ⟨[⟨"/a/x.txt", LoadResult.failure "m"⟩]⟩ none
    HookResult.disabled 3 (initialState 0) "/a/x.txt" (by decide) (by decide)
    (by intro f hf; simp only [List.mem_singleton] at hf; rw [hf]; decide)).1

/-- Recognizes the eval/exec rule output by its fixed suggestion text,
restricted to locally produced issues (no `source` tag). -/
def isDynExecIssue (i : Issue) : Bool :=
  i.suggestion == some "Avoid eval/exec; use safe parsers or restricted execution."
    && i.source == none

/-- Recognizes the f-string rule output by its fixed suggestion text. -/
def isFstringIssue (i : Issue) : Bool :=
  i.suggestion
      == some "Use parameterized queries (e.g., placeholders + parameters) instead of f-strings."
    && i.source == none

/-- Recognizes the concatenation rule output by its fixed suggestion text. -/
def isConcatIssue (i : Issue) : Bool :=
  i.suggestion == some "Use parameterized queries instead." && i.source == none

def isMediumIssue (i : Issue) : Bool :=
  i.severity == "medium"

lemma isDyn_dynExec (path id : String) (l : Nat) :
    isDynExecIssue (dynExecIssue path id l) = true := rfl

lemma isDyn_fstring (path : String) (l : Nat) :
    isDynExecIssue (fstringIssue path l) = false := rfl

lemma isDyn_concat (path : String) (l : Nat) :
    isDynExecIssue (concatIssue path l) = false := rfl

lemma isDyn_alignment (path : String) (missing : List String) :
    isDynExecIssue (alignmentIssue path missing) = false := rfl

lemma isDyn_tag (path : String) (r : HookRecord) :
    isDynExecIssue (tagRecord path r) = false := by
  have h : ((some "gemini" : Option String) == none) = false := rfl
  simp [isDynExecIssue, tagRecord, h]

lemma isFstring_dynExec (path id : String) (l : Nat) :
    isFstringIssue (dynExecIssue path id l) = false := rfl

lemma isFstring_fstring (path : String) (l : Nat) :
    isFstringIssue (fstringIssue path l) = true := rfl

lemma isFstring_concat (path : String) (l : Nat) :
    isFstringIssue (concatIssue path l) = false := rfl

lemma isFstring_alignment (path : String) (missing : List String) :
    isFstringIssue (alignmentIssue path missing) = false := rfl

lemma isFstring_tag (path : String) (r : HookRecord) :
    isFstringIssue (tagRecord path r) = false := by
  have h : ((some "gemini" : Option String) == none) = false := rfl
  simp [isFstringIssue, tagRecord, h]

lemma isConcat_dynExec (path id : String) (l : Nat) :
    isConcatIssue (dynExecIssue path id l) = false := rfl

lemma isConcat_fstring (path : String) (l : Nat) :
    isConcatIssue (fstringIssue path l) = false := rfl

lemma isConcat_concat (path : String) (l : Nat) :
    isConcatIssue (concatIssue path l) = true := rfl

lemma isConcat_alignment (path : String) (missing : List String) :
    isConcatIssue (alignmentIssue path missing) = false := rfl

lemma isConcat_tag (path : String) (r : HookRecord) :
    isConcatIssue (tagRecord path r) = false := by
  have h : ((some "gemini" : Option String) == none) = false := rfl
  simp [isConcatIssue, tagRecord, h]

lemma isMedium_dynExec (path id : String) (l : Nat) :
    isMediumIssue (dynExecIssue path id l) = false := rfl

lemma isMedium_fstring (path : String) (l : Nat) :
    isMediumIssue (fstringIssue path l) = false := rfl

lemma isMedium_concat (path : String) (l : Nat) :
    isMediumIssue (concatIssue path l) = false := rfl

lemma isMedium_alignment (path : String) (missing : List String) :
    isMediumIssue (alignmentIssue path missing) = true := rfl

/- Filtering commutes with the traversal as soon as it commutes with the
per-call rule. -/
mutual
theorem visitExprWith_filter (p : Issue → Bool)
    (r1 r2 : Expr → List Expr → Nat → List Issue)
    (h : ∀ f args line, (r1 f args line).filter p = r2 f args line) :
    ∀ e : Expr, (visitExprWith r1 e).filter p = visitExprWith r2 e
  | Expr.call f args line => by
      simp only [visitExprWith, List.filter_append]
      rw [h, visitExprWith_filter p r1 r2 h f, visitListWith_filter p r1 r2 h args]
  | Expr.attrGet v a l => by
      simp only [visitExprWith]
      exact visitExprWith_filter p r1 r2 h v
  | Expr.binOp l op r ln => by
      simp only [visitExprWith, List.filter_append]
      rw [visitExprWith_filter p r1 r2 h l, visitExprWith_filter p r1 r2 h r]
  | Expr.joinedStr vs l => by
      simp only [visitExprWith]
      exact visitListWith_filter p r1 r2 h vs
  | Expr.node cs l => by
      simp only [visitExprWith]
      exact visitListWith_filter p r1 r2 h cs
  | Expr.name _ _ => by simp [visitExprWith]
  | Expr.strLit _ _ => by simp [visitExprWith]
  | Expr.constOther _ => by simp [visitExprWith]

theorem visitListWith_filter (p : Issue → Bool)
    (r1 r2 : Expr → List Expr → Nat → List Issue)
    (h : ∀ f args line, (r1 f args line).filter p = r2 f args line) :
    ∀ es : List Expr, (visitListWith r1 es).filter p = visitListWith r2 es
  | [] => by simp [visitListWith]
  | e :: es => by
      simp only [visitListWith, List.filter_append]
      rw [visitExprWith_filter p r1 r2 h e, visitListWith_filter p r1 r2 h es]
end

/- The traversal under the vacuous rule collects nothing. -/
mutual
theorem visitExprWith_nil : ∀ e : Expr, visitExprWith (fun _ _ _ => []) e = []
  | Expr.call f args line => by
      simp only [visitExprWith, List.nil_append]
      rw [visitExprWith_nil f, visitListWith_nil args]
      rfl
  | Expr.attrGet v a l => by
      simp only [visitExprWith]
      exact visitExprWith_nil v
  | Expr.binOp l op r ln => by
      simp only [visitExprWith]
      rw [visitExprWith_nil l, visitExprWith_nil r]
      rfl
  | Expr.joinedStr vs l => by
      simp only [visitExprWith]
      exact visitListWith_nil vs
  | Expr.node cs l => by
      simp only [visitExprWith]
      exact visitListWith_nil cs
  | Expr.name _ _ => by simp [visitExprWith]
  | Expr.strLit _ _ => by simp [visitExprWith]
  | Expr.constOther _ => by simp [visitExprWith]

theorem visitListWith_nil : ∀ es : List Expr, visitListWith (fun _ _ _ => []) es = []
  | [] => by simp [visitListWith]
  | e :: es => by
      simp only [visitListWith]
      rw [visitExprWith_nil e, visitListWith_nil es]
      rfl
end

/-- The eval/exec detection alone, as a per-call rule. -/
def dynRule (path : String) (f : Expr) (_args : List Expr) (line : Nat) : List Issue :=
  dynCheck path f line

/-- The f-string detection alone, as a per-call rule. -/
def fstringRule (path : String) (f : Expr) (args : List Expr) (_line : Nat) : List Issue :=
  if isExecName f then
    match args with
    | Expr.joinedStr _ al :: _ => [fstringIssue path al]
    | _ => []
  else []

/-- The concatenation detection alone, as a per-call rule.  Like the code,
it accepts any binary operator with a string-literal operand. -/
def concatRule (path : String) (f : Expr) (args : List Expr) (_line : Nat) : List Issue :=
  if isExecName f then
    match args with
    | Expr.binOp l _ r al :: _ =>
        if isStrNode l || isStrNode r then [concatIssue path al] else []
    | _ => []
  else []

/-- One high eval/exec Issue per matching call, in document order. -/
def dynIssuesOf (path : String) (m : PyModule) : List Issue :=
  visitListWith (dynRule path) m.body

/-- One critical f-string Issue per matching call, in document order, each
at the line of the first argument node. -/
def fstringIssuesOf (path : String) (m : PyModule) : List Issue :=
  visitListWith (fstringRule path) m.body

/-- One high concatenation Issue per matching call, in document order. -/
def concatIssuesOf (path : String) (m : PyModule) : List Issue :=
  visitListWith (concatRule path) m.body

lemma dynCheck_filter_self (path : String) (f : Expr) (line : Nat) :
    (dynCheck path f line).filter isDynExecIssue = dynCheck path f line := by
  cases f <;> simp only [dynCheck] <;> try rfl
  split <;> rfl

lemma sqlFirstIssues_filter_dyn (path : String) (first : Expr) :
    (sqlFirstIssues path first).filter isDynExecIssue = [] := by
  unfold sqlFirstIssues
  rw [List.filter_append]
  cases first <;> try rfl
  simp only [List.filter_nil, List.nil_append]
  split <;> rfl

lemma callIssues_filter_dyn (path : String) (f : Expr) (args : List Expr) (line : Nat) :
    (callIssues path f args line).filter isDynExecIssue = dynRule path f args line := by
  unfold callIssues dynRule
  rw [List.filter_append]
  have h2 : (sqlCheck path f args).filter isDynExecIssue = [] := by
    unfold sqlCheck
    split
    · cases args with
      | nil => rfl
      | cons first rest => exact sqlFirstIssues_filter_dyn path first
    · rfl
  rw [h2, List.append_nil]
  exact dynCheck_filter_self path f line

lemma dynCheck_filter_fstring (path : String) (f : Expr) (line : Nat) :
    (dynCheck path f line).filter isFstringIssue = [] := by
  cases f <;> simp only [dynCheck] <;> try rfl
  split <;> rfl

lemma callIssues_filter_fstring (path : String) (f : Expr) (args : List Expr) (line : Nat) :
    (callIssues path f args line).filter isFstringIssue = fstringRule path f args line := by
  unfold callIssues fstringRule
  rw [List.filter_append, dynCheck_filter_fstring, List.nil_append]
  unfold sqlCheck
  split
  · cases args with
    | nil => rfl
    | cons first rest =>
        unfold sqlFirstIssues
        rw [List.filter_append]
        cases first <;> try rfl
        simp only [List.filter_nil, List.nil_append]
        split <;> rfl
  · rfl

lemma dynCheck_filter_concat (path : String) (f : Expr) (line : Nat) :
    (dynCheck path f line).filter isConcatIssue = [] := by
  cases f <;> simp only [dynCheck] <;> try rfl
  split <;> rfl

lemma callIssues_filter_concat (path : String) (f : Expr) (args : List Expr) (line : Nat) :
    (callIssues path f args line).filter isConcatIssue = concatRule path f args line := by
  unfold callIssues concatRule
  rw [List.filter_append, dynCheck_filter_concat, List.nil_append]
  unfold sqlCheck
  split
  · cases args with
    | nil => rfl
    | cons first rest =>
        unfold sqlFirstIssues
        rw [List.filter_append]
        cases first <;> try rfl
        simp only [List.filter_nil, List.nil_append]
        split <;> rfl
  · rfl

lemma callIssues_filter_medium (path : String) (f : Expr) (args : List Expr) (line : Nat) :
    (callIssues path f args line).filter isMediumIssue = [] := by
  unfold callIssues
  rw [List.filter_append]
  have h1 : (dynCheck path f line).filter isMediumIssue = [] := by
    cases f <;> simp only [dynCheck] <;> try rfl
    split <;> rfl
  have h2 : (sqlCheck path f args).filter isMediumIssue = [] := by
    unfold sqlCheck
    split
    · cases args with
      | nil => rfl
      | cons first rest =>
          unfold sqlFirstIssues
          rw [List.filter_append]
          cases first <;> try rfl
          simp only [List.filter_nil, List.nil_append]
          split <;> rfl
    · rfl
  rw [h1, h2]
  rfl

lemma mergeHookRecords_filter_local (path : String) (rs : List (Option HookRecord))
    (p : Issue → Bool) (hp : ∀ r, p (tagRecord path r) = false) :
    (mergeHookRecords path rs).filter p = [] := by
  induction rs with
  | nil => rfl
  | cons r rest ih =>
      cases r with
      | none => rfl
      | some r => simp [mergeHookRecords, List.filter_cons, hp, ih]

lemma alignmentIssues_filter_none (path src : String) (kws : List String)
    (p : Issue → Bool) (hp : ∀ missing, p (alignmentIssue path missing) = false) :
    (alignmentIssues path src kws).filter p = [] := by
  unfold alignmentIssues
  split
  · rfl
  · show ((if (kws.filter (fun k => !(strContains (strLower src) k))).isEmpty then []
          else [alignmentIssue path (kws.filter (fun k => !(strContains (strLower src) k)))]).filter p)
        = []
    split
    · rfl
    · simp [List.filter_cons, hp]

/-- Filtering the `audit_file` result by a discriminator that rejects
alignment issues and hook-tagged issues leaves the rule findings alone. -/
lemma auditFile_filter_success (path src : String) (m : PyModule) (kws : List String)
    (hook : HookResult) (p : Issue → Bool)
    (halign : ∀ missing, p (alignmentIssue path missing) = false)
    (htag : ∀ r, p (tagRecord path r) = false) :
    (auditFile path (LoadResult.success src m) kws hook).filter p
      = (visitModule path m).filter p := by
  cases hook with
  | disabled =>
      show ((visitModule path m ++ alignmentIssues path src kws).filter p) = _
      rw [List.filter_append, alignmentIssues_filter_none path src kws p halign,
          List.append_nil]
  | raises =>
      show ((visitModule path m ++ alignmentIssues path src kws).filter p) = _
      rw [List.filter_append, alignmentIssues_filter_none path src kws p halign,
          List.append_nil]
  | returns rs =>
      show (((visitModule path m ++ alignmentIssues path src kws)
              ++ mergeHookRecords path rs).filter p) = _
      rw [List.filter_append, List.filter_append,
          alignmentIssues_filter_none path src kws p halign,
          mergeHookRecords_filter_local path rs p htag, List.append_nil, List.append_nil]

/-- C6: on a parsed file the eval/exec findings of `audit_file` are exactly
one high-severity Issue per bare-name call to `eval` or `exec`, in document
order, each carrying the line of the call node, a message naming the
primitive, and the safe-parsing suggestion — whatever the keyword set and
hook behaviour. -/
theorem c6_dyn_exec_one_issue_per_call (path src : String) (m : PyModule)
    (kws : List String) (hook : HookResult) :
    (auditFile path (LoadResult.success src m) kws hook).filter isDynExecIssue
      = dynIssuesOf path m := by
  rw [auditFile_filter_success path src m kws hook isDynExecIssue
      (isDyn_alignment path) (isDyn_tag path)]
  unfold visitModule dynIssuesOf
  exact visitListWith_filter isDynExecIssue (callIssues path) (dynRule path)
    (fun f args line => callIssues_filter_dyn path f args line) m.body

/-- C2 (amended): the f-string findings of `audit_file` are exactly one
critical-severity Issue per call whose resolved name case-insensitively
matches execute/executemany and whose first positional argument is an
f-string — each with the interpolated-string message and the parameterized
query suggestion, carrying the line of the argument node (`first.lineno`),
which is the line of the call whenever the argument starts on the same
line. -/
theorem c2_fstring_issue_per_call_at_argument_line (path src : String) (m : PyModule)
    (kws : List String) (hook : HookResult) :
    (auditFile path (LoadResult.success src m) kws hook).filter isFstringIssue
      = fstringIssuesOf path m := by
  rw [auditFile_filter_success path src m kws hook isFstringIssue
      (isFstring_alignment path) (isFstring_tag path)]
  unfold visitModule fstringIssuesOf
  exact visitListWith_filter isFstringIssue (callIssues path) (fstringRule path)
    (fun f args line => callIssues_filter_fstring path f args line) m.body

/-- A qualified `cursor.execute(...)` call starting on line 1 whose
f-string argument starts on line 2. -/
def c2Module : PyModule :=
  ⟨[Expr.call (Expr.attrGet (Expr.name "cursor" 1) "execute" 1)
      [Expr.joinedStr [] 2] 1]⟩

/-- C2 counterexample: for a call node on line 1 with its f-string argument
on line 2, the emitted critical Issue carries `first.lineno` (2), so no
critical Issue carries the line of the call (1): the claim as stated fails
on multi-line calls. -/
theorem c2_counterexample :
    ¬ ∃ i ∈ auditFile "q.py" (LoadResult.success "s" c2Module) [] HookResult.disabled,
        i.severity = "critical" ∧ i.line = some 1 := by
  decide

lemma mem_dynCheck_shape (path : String) (f : Expr) (line : Nat) {i : Issue}
    (h : i ∈ dynCheck path f line) : ∃ id, i = dynExecIssue path id line := by
  cases f with
  | name id l =>
      simp only [dynCheck] at h
      split at h
      · exact ⟨id, List.mem_singleton.mp h⟩
      · cases h
  | attrGet v a l => cases h
  | strLit s l => cases h
  | constOther l => cases h
  | joinedStr vs l => cases h
  | binOp le o r l => cases h
  | call fn ar l => cases h
  | node cs l => cases h

lemma mem_sqlCheck_shape (path : String) (f : Expr) (args : List Expr) {i : Issue}
    (h : i ∈ sqlCheck path f args) :
    ∃ first rest, args = first :: rest ∧ i ∈ sqlFirstIssues path first := by
  unfold sqlCheck at h
  split at h
  · cases args with
    | nil => cases h
    | cons first rest => exact ⟨first, rest, rfl, h⟩
  · cases h

/-- A single argument node is one constructor: it cannot satisfy the
f-string shape and the binary-operation shape at once, so the two query
rules never both fire on it. -/
lemma sqlFirstIssues_not_both (path : String) (first : Expr) (a b : Nat) :
    ¬ (fstringIssue path a ∈ sqlFirstIssues path first
        ∧ concatIssue path b ∈ sqlFirstIssues path first) := by
  intro hb
  obtain ⟨h1, h2⟩ := hb
  cases first with
  | joinedStr vs al =>
      have h3 : concatIssue path b = fstringIssue path al := by
        have h4 : concatIssue path b ∈ [fstringIssue path al] := h2
        exact List.mem_singleton.mp h4
      have h5 : ("high" : String) = "critical" := congrArg Issue.severity h3
      exact absurd h5 (by decide)
  | binOp l o r al =>
      have h4 : fstringIssue path a ∈
          (if isStrNode l || isStrNode r then [concatIssue path al] else []) := h1
      split at h4
      · have h5 := List.mem_singleton.mp h4
        have h6 : ("critical" : String) = "high" := congrArg Issue.severity h5
        exact absurd h6 (by decide)
      · cases h4
  | name id l => cases h1
  | attrGet v at2 l => cases h1
  | strLit s l => cases h1
  | constOther l => cases h1
  | call fn ar l => cases h1
  | node cs l => cases h1

/-- C4: the concatenation findings of `audit_file` are exactly one
high-severity Issue per execute/executemany call whose first positional
argument is a binary operation with a plain string-literal operand (this
covers every `+` concatenation; the code matches any binary operator) —
each with the string-concatenation message and the parameterized-queries
suggestion; and on any single call, hence any single argument node, the
critical f-string Issue and the high concatenation Issue never fire
together. -/
theorem c4_concat_issue_and_rule_exclusion (path src : String) (m : PyModule)
    (kws : List String) (hook : HookResult) :
    ((auditFile path (LoadResult.success src m) kws hook).filter isConcatIssue
        = concatIssuesOf path m)
    ∧ (∀ f args line a b,
        ¬ (fstringIssue path a ∈ callIssues path f args line
            ∧ concatIssue path b ∈ callIssues path f args line)) := by
  constructor
  · rw [auditFile_filter_success path src m kws hook isConcatIssue
        (isConcat_alignment path) (isConcat_tag path)]
    unfold visitModule concatIssuesOf
    exact visitListWith_filter isConcatIssue (callIssues path) (concatRule path)
      (fun f args line => callIssues_filter_concat path f args line) m.body
  · intro f args line a b hb
    obtain ⟨hfs, hcc⟩ := hb
    rw [callIssues, List.mem_append] at hfs hcc
    cases hfs with
    | inl hfs =>
        obtain ⟨id, hid⟩ := mem_dynCheck_shape path f line hfs
        have h6 : ("critical" : String) = "high" := congrArg Issue.severity hid
        exact absurd h6 (by decide)
    | inr hfs =>
        cases hcc with
        | inl hcc =>
            obtain ⟨id, hid⟩ := mem_dynCheck_shape path f line hcc
            have h6 : (some "Use parameterized queries instead." : Option String)
                = some "Avoid eval/exec; use safe parsers or restricted execution." :=
              congrArg Issue.suggestion hid
            exact absurd h6 (by decide)
        | inr hcc =>
            obtain ⟨first, rest, harg, hmem⟩ := mem_sqlCheck_shape path f args hfs
            obtain ⟨first2, rest2, harg2, hmem2⟩ := mem_sqlCheck_shape path f args hcc
            rw [harg] at harg2
            injection harg2 with hf12 hr12
            rw [← hf12] at hmem2
            exact sqlFirstIssues_not_both path first a b ⟨hmem, hmem2⟩

/-- A bare `execute(...)` call whose first argument is a `+` concatenation
with a string literal on the left. -/
def c4Module : PyModule :=
  ⟨[Expr.call (Expr.name "execute" 1)
      [Expr.binOp (Expr.strLit "SELECT " 2) PyOp.add (Expr.name "uid" 2) 2] 1]⟩

theorem c4_concat_issue_and_rule_exclusion_witness :
    ((auditFile "w.py" (LoadResult.success "s" c4Module) [] HookResult.disabled).filter
        isConcatIssue = [concatIssue "w.py" 2])
    ∧ ¬ (fstringIssue "w.py" 2 ∈ callIssues "w.py" (Expr.name "execute" 1)
          [Expr.binOp (Expr.strLit "SELECT " 2) PyOp.add (Expr.name "uid" 2) 2] 1
        ∧ concatIssue "w.py" 2 ∈ callIssues "w.py" (Expr.name "execute" 1)
          [Expr.binOp (Expr.strLit "SELECT " 2) PyOp.add (Expr.name "uid" 2) 2] 1) :=
  ⟨by
    rw [(c4_concat_issue_and_rule_exclusion "w.py" "s" c4Module [] HookResult.disabled).1]
    decide,
   (c4_concat_issue_and_rule_exclusion "w.py" "s" c4Module [] HookResult.disabled).2
     (Expr.name "execute" 1)
     [Expr.binOp (Expr.strLit "SELECT " 2) PyOp.add (Expr.name "uid" 2) 2] 1 2 2⟩

/-- C7: with the hook disabled, `audit_file` emits exactly one medium
Issue precisely when the keyword set is non-empty and some keyword is
absent from the lowercased source as a literal substring; the Issue has no
line, the misalignment message, and a sample of the first at most 5 missing
keywords in keyword order; an empty keyword set emits nothing whatever the
file content, and an all-present keyword set emits nothing. -/
theorem c7_alignment_check (path src : String) (m : PyModule) (kws : List String) :
    (kws = [] →
        (auditFile path (LoadResult.success src m) kws HookResult.disabled).filter
          isMediumIssue = [])
    ∧ ((∀ k ∈ kws, strContains (strLower src) k = true) →
        (auditFile path (LoadResult.success src m) kws HookResult.disabled).filter
          isMediumIssue = [])
    ∧ ((∃ k ∈ kws, strContains (strLower src) k = false) →
        (auditFile path (LoadResult.success src m) kws HookResult.disabled).filter
          isMediumIssue
          = [alignmentIssue path
              (kws.filter (fun k => !(strContains (strLower src) k)))]) := by
  have hvisit : (visitModule path m).filter isMediumIssue = [] := by
    unfold visitModule
    rw [visitListWith_filter isMediumIssue (callIssues path) (fun _ _ _ => [])
        (fun f args line => callIssues_filter_medium path f args line) m.body]
    exact visitListWith_nil m.body
  have hfile : (auditFile path (LoadResult.success src m) kws HookResult.disabled).filter
      isMediumIssue = (alignmentIssues path src kws).filter isMediumIssue := by
    show ((visitModule path m ++ alignmentIssues path src kws).filter isMediumIssue) = _
    rw [List.filter_append, hvisit, List.nil_append]
  refine ⟨?_, ?_, ?_⟩
  · intro hkws
    rw [hfile]
    subst hkws
    rfl
  · intro hall
    rw [hfile]
    have hmiss : kws.filter (fun k => !(strContains (strLower src) k)) = [] := by
      rw [List.filter_eq_nil_iff]
      intro k hk
      simp [hall k hk]
    unfold alignmentIssues
    split
    · rfl
    · show ((if (kws.filter (fun k => !(strContains (strLower src) k))).isEmpty then []
            else [alignmentIssue path
              (kws.filter (fun k => !(strContains (strLower src) k)))]).filter
          isMediumIssue) = []
      rw [hmiss]
      rfl
  · intro hex
    obtain ⟨k, hk, hmissk⟩ := hex
    rw [hfile]
    have hkne : kws.isEmpty = false := by
      cases kws with
      | nil => cases hk
      | cons a l => rfl
    have hmem : k ∈ kws.filter (fun k => !(strContains (strLower src) k)) := by
      rw [List.mem_filter]
      exact ⟨hk, by rw [hmissk]; rfl⟩
    have hne : (kws.filter (fun k => !(strContains (strLower src) k))).isEmpty = false := by
      cases hfil : kws.filter (fun k => !(strContains (strLower src) k)) with
      | nil => rw [hfil] at hmem; cases hmem
      | cons a l => rfl
    unfold alignmentIssues
    rw [hkne]
    show ((if (false = true) then []
          else (if (kws.filter (fun k => !(strContains (strLower src) k))).isEmpty then []
            else [alignmentIssue path
              (kws.filter (fun k => !(strContains (strLower src) k)))])).filter
        isMediumIssue) = _
    rw [if_neg (by decide : ¬ (false = true)), hne,
        if_neg (by decide : ¬ (false = true))]
    rfl

theorem c7_alignment_check_witness :
    (auditFile "w.py" (LoadResult.success "abc" ⟨[]⟩) ["zebra"]
        HookResult.disabled).filter isMediumIssue
      = [alignmentIssue "w.py" ["zebra"]] := by
  have h := (c7_alignment_check "w.py" "abc" ⟨[]⟩ ["zebra"]).2.2
    ⟨"zebra", by decide, by decide⟩
  rw [h]
  decide

/-- First-occurrence deduplication as the spec words it: keep each word at
its first appearance and drop its later duplicates. -/
def specDedupFirst : List String → List String
  | [] => []
  | w :: ws => w :: specDedupFirst (ws.filter (fun v => !(v == w)))
termination_by l => l.length
decreasing_by
  simp only [List.length_cons]
  exact Nat.lt_succ_of_le (List.length_filter_le _ ws)

lemma filter_not_has_cons (ws seen : List String) (w : String) :
    (ws.filter (fun v => !(strListHas seen v))).filter (fun v => !(v == w))
      = ws.filter (fun v => !(strListHas (w :: seen) v)) := by
  induction ws with
  | nil => rfl
  | cons a as ih =>
      simp only [strListHas] at ih ⊢
      cases hh : strListHas seen a <;> cases he : (a == w) <;>
        simp [List.filter_cons, hh, he, ih]

/-- The dedup-and-cap loop equals first-occurrence dedup followed by a
truncation to what still fits under the cap of 20. -/
lemma keywordLoop_spec : ∀ (ws seen out : List String), out.length < 20 →
    keywordLoop ws seen out
      = out ++ (specDedupFirst (ws.filter (fun w => !(strListHas seen w)))).take
          (20 - out.length)
  | [], seen, out, _ => by
      simp [keywordLoop, specDedupFirst]
  | w :: ws, seen, out, h => by
      by_cases hc : strListHas seen w = true
      · have hrec := keywordLoop_spec ws seen out h
        simp only [keywordLoop, hc, if_true, List.filter_cons, Bool.not_true,
          Bool.false_eq_true, ite_false]
        exact hrec
      · rw [Bool.not_eq_true] at hc
        have hfc : (w :: ws).filter (fun v => !(strListHas seen v))
            = w :: ws.filter (fun v => !(strListHas seen v)) := by
          simp [List.filter_cons, hc]
        have hded : specDedupFirst ((w :: ws).filter (fun v => !(strListHas seen v)))
            = w :: specDedupFirst (ws.filter (fun v => !(strListHas (w :: seen) v))) := by
          rw [hfc, specDedupFirst, filter_not_has_cons]
        have htake : 20 - out.length = (20 - (out.length + 1)) + 1 := by omega
        by_cases h20 : 20 ≤ out.length + 1
        · have hz : 20 - (out.length + 1) = 0 := by omega
          simp only [keywordLoop, hc, Bool.false_eq_true, ite_false]
          rw [if_pos (by simp only [List.length_append, List.length_cons,
                List.length_nil, Nat.zero_add]; omega),
            hded, htake, hz, List.take_succ_cons, List.take_zero]
        · have h21 : (out ++ [w]).length < 20 := by
            simp only [List.length_append, List.length_singleton]
            omega
          have hrec := keywordLoop_spec ws (w :: seen) (out ++ [w]) h21
          simp only [keywordLoop, hc, Bool.false_eq_true, ite_false]
          rw [if_neg (by simp only [List.length_append, List.length_cons,
                List.length_nil, Nat.zero_add]; omega),
            hrec, hded, htake, List.take_succ_cons]
          simp only [List.length_append, List.length_singleton]
          rw [List.append_assoc]
          rfl

/-- C8: the Intent Extractor returns nothing for a missing document, and
otherwise returns the maximal alphabetic runs of the lowercased text,
stopwords removed, deduplicated keeping first occurrences, truncated to the
first 20 surviving unique tokens in document order. -/
theorem c8_extract_readme_keywords (s : String) :
    extractReadmeKeywords none = []
    ∧ extractReadmeKeywords (some s)
        = (specDedupFirst ((alphaRuns (strLower s)).filter
            (fun w => !(strListHas STOPWORDS w)))).take 20 := by
  refine ⟨rfl, ?_⟩
  show keywordLoop ((alphaRuns (strLower s)).filter (fun w => !(strListHas STOPWORDS w)))
      [] [] = _
  rw [keywordLoop_spec _ [] [] (by decide)]
  have hid : ((alphaRuns (strLower s)).filter (fun w => !(strListHas STOPWORDS w))).filter
      (fun w => !(strListHas [] w))
      = (alphaRuns (strLower s)).filter (fun w => !(strListHas STOPWORDS w)) := by
    simp [strListHas]
  simp only [List.nil_append, List.length_nil, Nat.sub_zero]
  rw [hid]
